import Mathlib

/-!
A verification development for the 9x9 sudoku engine of this repository.

The engine lives in src/components/game-board.tsx (generation, solving,
uniqueness counting, validation) and src/lib/ocr-engine.ts (extracted-board
validation and the puzzle fingerprint hash). Every definition below is a
direct functional reading of the corresponding TypeScript function and keeps
its name. Conventions of the embedding:

* `number[][]` becomes `List (List Nat)`; reads are `getD` with default 0 and
  writes are `List.set` (a write past the end is a no-op, which the engine
  never triggers on well-formed 9x9 grids).
* in-place mutation becomes explicit state passing: a function that mutates
  its board returns the board state it leaves behind;
* `Math.random()` becomes an explicit stream `rand : Nat -> Nat` together
  with a counter `k` that advances by one per consumed value:
  `Math.floor(Math.random() * (i + 1))` is `rand k % (i + 1)`;
* the unbounded recursions (backtracking search, and the retry recursion of
  `generateSudoku`) take a fuel argument; the search depth is bounded by the
  81 cells, so fuel 82 makes the fueled search agree with the source on every
  9x9 grid, while `generateSudoku` returns `none` only when its retry fuel
  runs out.
-/

/-- A board: `number[][]` from the source, 0 = empty cell. -/
abbrev Grid := List (List Nat)

/-- `board[row][col]` (0 when out of range; the engine only reads in range on
well-formed grids). -/
def cell (board : Grid) (row col : Nat) : Nat :=
  (board.getD row []).getD col 0

/-- `board[row][col] = v` as a pure update. -/
def setCell (board : Grid) (row col v : Nat) : Grid :=
  board.set row ((board.getD row []).set col v)

/-- `isValidMove` from game-board.tsx: `num` must not occur at another cell of
the row, of the column, or of the 3x3 box containing `(row, col)`; the cell
`(row, col)` itself is excluded from all three scans. -/
def isValidMove (board : Grid) (row col num : Nat) : Bool :=
  ((List.range 9).all fun x => x == col || cell board row x != num) &&
  ((List.range 9).all fun x => x == row || cell board x col != num) &&
  (let boxRow := row / 3 * 3
   let boxCol := col / 3 * 3
   (List.range 3).all fun i => (List.range 3).all fun j =>
     ((boxRow + i == row) && (boxCol + j == col)) || cell board (boxRow + i) (boxCol + j) != num)

/-- The row-major scan for the first empty cell that opens `solveBacktrack`,
`fillBoard` and `countSolutionsLimited` in the source. -/
def findEmpty (board : Grid) : Option (Nat × Nat) :=
  (List.range 9).findSome? fun row => (List.range 9).findSome? fun col =>
    if cell board row col == 0 then some (row, col) else none

/-- `validateSudoku` from game-board.tsx: every cell filled and every cell
legal in place. -/
def validateSudoku (board : Grid) : Bool :=
  (List.range 9).all fun row => (List.range 9).all fun col =>
    cell board row col != 0 && isValidMove board row col (cell board row col)

/-- The digit loop of `solveBacktrack`: try the digits in order, recursing
through `recur`; a failed recursive call resets the cell to 0 in the source,
so the pure model continues from the unchanged `board`. The result is the
success flag together with the board state left behind. -/
def solveTry (recur : Grid → Bool × Grid) (board : Grid) (row col : Nat) :
    List Nat → Bool × Grid
  | [] => (false, board)
  | num :: rest =>
    if isValidMove board row col num then
      match recur (setCell board row col num) with
      | (true, solved) => (true, solved)
      | (false, _) => solveTry recur board row col rest
    else solveTry recur board row col rest

/-- `solveBacktrack` from game-board.tsx: deterministic backtracking, digits
1..9 in ascending order at the first empty cell in row-major order. -/
def solveBacktrack : Nat → Grid → Bool × Grid
  | 0, board => (false, board)
  | fuel + 1, board =>
    match findEmpty board with
    | none => (true, board)
    | some (row, col) => solveTry (solveBacktrack fuel) board row col [1, 2, 3, 4, 5, 6, 7, 8, 9]

/-- `board.map((row) => [...row])`: the private copy every search runs on. -/
def copyGrid (board : Grid) : Grid :=
  board.map fun row => row.map fun v => v

/-- `solveSudoku` from game-board.tsx: copy the board, run the backtracking
search on the copy, return the solved copy or null. -/
def solveSudoku (board : Grid) : Option Grid :=
  match solveBacktrack 82 (copyGrid board) with
  | (true, solved) => some solved
  | (false, _) => none

/-- The digit loop of `countSolutionsLimited`, threading the solutions
accumulator; after each recursive call the source returns immediately once
the accumulated count has reached `limit`. -/
def countTry (recur : Grid → List Grid → List Grid) (board : Grid) (row col limit : Nat) :
    List Nat → List Grid → List Grid
  | [], sols => sols
  | num :: rest, sols =>
    if isValidMove board row col num then
      let sols2 := recur (setCell board row col num) sols
      if limit ≤ sols2.length then sols2
      else countTry recur board row col limit rest sols2
    else countTry recur board row col limit rest sols

/-- `countSolutionsLimited` from game-board.tsx: the same search as the
solver, but it pushes every completed grid onto `sols` and aborts the moment
`sols.length` reaches `limit`. -/
def countSolutionsLimited (limit : Nat) : Nat → Grid → List Grid → List Grid
  | 0, _, sols => sols
  | fuel + 1, board, sols =>
    if limit ≤ sols.length then sols
    else
      match findEmpty board with
      | none => sols ++ [board]
      | some (row, col) =>
        countTry (countSolutionsLimited limit fuel) board row col limit
          [1, 2, 3, 4, 5, 6, 7, 8, 9] sols

/-- `countSolutions(grid, limit)` of the spec: run the limited counter on a
copy of the board (as `hasUniqueSolution` does) and report the count. -/
def countSolutions (board : Grid) (limit : Nat) : Nat :=
  (countSolutionsLimited limit 82 (copyGrid board) []).length

/-- `hasUniqueSolution` from game-board.tsx: count solutions up to 2 on a
copy, unique when the count is exactly 1. -/
def hasUniqueSolution (board : Grid) : Bool :=
  (countSolutionsLimited 2 82 (copyGrid board) []).length == 1

/-- The swap `[a[i], a[j]] = [a[j], a[i]]` of `shuffleArray`: both cells are
read before either is written. -/
def listSwap [Inhabited α] (l : List α) (i j : Nat) : List α :=
  (l.set i (l.getD j default)).set j (l.getD i default)

/-- The Fisher-Yates loop of `shuffleArray`: the index walks from
`length - 1` down to 1, each step consuming one value of the stream. -/
def shuffleAux [Inhabited α] (rand : Nat → Nat) : Nat → List α → Nat → List α × Nat
  | 0, l, k => (l, k)
  | i + 1, l, k => shuffleAux rand i (listSwap l (i + 1) (rand k % (i + 2))) (k + 1)

/-- `shuffleArray` from game-board.tsx. -/
def shuffleArray [Inhabited α] (rand : Nat → Nat) (l : List α) (k : Nat) : List α × Nat :=
  shuffleAux rand (l.length - 1) l k

/-- `fillBox` from game-board.tsx: write a shuffled 1..9 into the 3x3 box at
`(row, col)` in row-major order (the `index++` walk of the source). -/
def fillBox (rand : Nat → Nat) (board : Grid) (row col k : Nat) : Grid × Nat :=
  let p := shuffleArray rand [1, 2, 3, 4, 5, 6, 7, 8, 9] k
  let write := fun (b : Grid) (ij : Nat × Nat) =>
    setCell b (row + ij.1) (col + ij.2) (p.1.getD (ij.1 * 3 + ij.2) 0)
  (((List.range 3).flatMap fun i => (List.range 3).map fun j => (i, j)).foldl write board, p.2)

/-- `fillDiagonalBoxes` from game-board.tsx. -/
def fillDiagonalBoxes (rand : Nat → Nat) (board : Grid) (k : Nat) : Grid × Nat :=
  let p0 := fillBox rand board 0 0 k
  let p1 := fillBox rand p0.1 3 3 p0.2
  fillBox rand p1.1 6 6 p1.2

/-- The digit loop of `fillBoard`: try the freshly shuffled digits in order;
a failed recursive call resets the cell to 0 in the source, so the pure model
continues from the unchanged `board` (the random counter does advance). -/
def fillTry (recur : Grid → Nat → Bool × Grid × Nat) (board : Grid) (row col : Nat) :
    List Nat → Nat → Bool × Grid × Nat
  | [], k => (false, board, k)
  | num :: rest, k =>
    if isValidMove board row col num then
      match recur (setCell board row col num) k with
      | (true, b2, k2) => (true, b2, k2)
      | (false, _, k2) => fillTry recur board row col rest k2
    else fillTry recur board row col rest k

/-- `fillBoard` from game-board.tsx: randomized backtracking at the first
empty cell in row-major order. -/
def fillBoard (rand : Nat → Nat) : Nat → Grid → Nat → Bool × Grid × Nat
  | 0, board, k => (false, board, k)
  | fuel + 1, board, k =>
    match findEmpty board with
    | none => (true, board, k)
    | some (row, col) =>
      let p := shuffleArray rand [1, 2, 3, 4, 5, 6, 7, 8, 9] k
      fillTry (fillBoard rand fuel) board row col p.1 p.2

/-- `generateCompleteSudoku` from game-board.tsx: seed the three diagonal
boxes, then fill the rest by randomized backtracking. The boolean result of
`fillBoard` is discarded exactly as in the source. -/
def generateCompleteSudoku (rand : Nat → Nat) (k : Nat) : Grid × Nat :=
  let board : Grid := List.replicate 9 (List.replicate 9 0)
  let p := fillDiagonalBoxes rand board k
  let q := fillBoard rand 82 p.1 p.2
  (q.2.1, q.2.2)

/-- The removal loop of `createPuzzleFromSolution`: walk the shuffled
positions while `removed < toRemove`; tentatively zero a cell, keep the
removal only when the board still has a unique solution, otherwise write the
original value back. Returns the final board and the removal counter. -/
def removeLoop : List (Nat × Nat) → Grid → Int → Int → Grid × Int
  | [], board, removed, _ => (board, removed)
  | (row, col) :: rest, board, removed, toRemove =>
    if removed < toRemove then
      let originalValue := cell board row col
      let board2 := setCell board row col 0
      if hasUniqueSolution board2 then removeLoop rest board2 (removed + 1) toRemove
      else removeLoop rest (setCell board2 row col originalValue) removed toRemove
    else (board, removed)

/-- The position-list preparation of `createPuzzleFromSolution` in
game-board.tsx, factored out: enumerate all 81 coordinates row-major, then
shuffle the list three times ("for better randomness" per the source
comment). Returns the list and the advanced random counter. -/
def shuffledPositions (rand : Nat → Nat) (k : Nat) : List (Nat × Nat) × Nat :=
  let positions : List (Nat × Nat) :=
    (List.range 9).flatMap fun row => (List.range 9).map fun col => (row, col)
  let s1 := shuffleArray rand positions k
  let s2 := shuffleArray rand s1.1 s1.2
  shuffleArray rand s2.1 s2.2

/-- `createPuzzleFromSolution` from game-board.tsx: copy the solution, then
run the removal loop over the shuffled position list with
`toRemove = 81 - targetClues`. Besides the board the model also exposes the
final removal counter (a local variable in the source) and the advanced
random counter. -/
def createPuzzleFromSolution (rand : Nat → Nat) (solution : Grid) (targetClues : Int)
    (k : Nat) : Grid × Int × Nat :=
  let board := copyGrid solution
  let s3 := shuffledPositions rand k
  let toRemove : Int := 81 - targetClues
  let r := removeLoop s3.1 board 0 toRemove
  (r.1, r.2, s3.2)

/-- The difficulty labels of src/types/sudoku.ts (`unknown` appears on the
`Puzzle` side only). -/
inductive Difficulty where
  | easy | medium | hard | unknown
deriving DecidableEq, Repr

/-- The `Puzzle` record of src/types/sudoku.ts. -/
structure Puzzle where
  id : String
  board : Grid
  solution : Grid
  difficulty : Difficulty
  clues : Int
deriving DecidableEq, Repr

/-- The `GenerationOptions` record of src/types/sudoku.ts. -/
structure GenerationOptions where
  clues : Int
  difficulty : Difficulty
  ensureUnique : Bool
  ensureSolvable : Bool
deriving DecidableEq, Repr

/-- `generateSudoku` from game-board.tsx. The source retries by unguarded
self-recursion (`return generateSudoku(options)`) when `ensureUnique` is
requested and the final uniqueness check fails; the fuel argument bounds that
retry recursion in the model, and `none` marks fuel exhaustion. `now` stands
for `Date.now().toString()`. -/
def generateSudoku (rand : Nat → Nat) (now : String) :
    Nat → GenerationOptions → Nat → Option (Puzzle × Nat)
  | 0, _, _ => none
  | fuel + 1, options, k =>
    let p := generateCompleteSudoku rand k
    let q := createPuzzleFromSolution rand p.1 options.clues p.2
    if options.ensureUnique && !hasUniqueSolution q.1 then
      generateSudoku rand now fuel options q.2.2
    else
      some ({ id := now, board := q.1, solution := p.1,
              difficulty := options.difficulty, clues := options.clues }, q.2.2)

/-- The 81 coordinates the engine scans. -/
def scanPos : Finset (Nat × Nat) := Finset.range 9 ×ˢ Finset.range 9

/-- The number of empty scan cells of a board. -/
def zerosB (board : Grid) : Nat :=
  (scanPos.filter fun p => cell board p.1 p.2 = 0).card

/-- The number of non-zero scan cells of a board: its clue count. -/
def clueCountB (board : Grid) : Nat :=
  (scanPos.filter fun p => ¬ cell board p.1 p.2 = 0).card

namespace Ocr

/-- `isValidMove` from ocr-engine.ts. Unlike the game-board variant it does
not skip the cell `(row, col)` itself, which is why `hasConflicts` zeroes a
cell before checking it. -/
def isValidMove (board : Grid) (row col num : Nat) : Bool :=
  ((List.range 9).all fun x => cell board row x != num) &&
  ((List.range 9).all fun x => cell board x col != num) &&
  (let boxRow := row / 3 * 3
   let boxCol := col / 3 * 3
   (List.range 3).all fun i => (List.range 3).all fun j =>
     cell board (boxRow + i) (boxCol + j) != num)

/-- `hasConflicts` from ocr-engine.ts: scan every filled cell, temporarily
remove its value (the source writes 0, checks, and restores) and ask the
constraint checker whether the value is still placeable. -/
def hasConflicts (board : Grid) : Bool :=
  (List.range 9).any fun row => (List.range 9).any fun col =>
    cell board row col != 0 &&
      !(Ocr.isValidMove (setCell board row col 0) row col (cell board row col))

/-- `countSolutions` from ocr-engine.ts: a mock that never searches and
always reports one solution. -/
def countSolutions (_board : Grid) : Nat := 1

/-- The structural guard of `validateExtractedPuzzle`:
`board.length !== 9 || !board.every((row) => row.length === 9)` (the model
has no null board). -/
def structurallyValid (board : Grid) : Bool :=
  board.length == 9 && board.all fun row => row.length == 9

/-- The digit guard of `validateExtractedPuzzle`: some scanned cell is out of
range (`cell < 0 || cell > 9`; cells are Nat in the model, so only the upper
bound can fire). -/
def hasInvalidNumbers (board : Grid) : Bool :=
  (List.range 9).any fun row => (List.range 9).any fun col => 9 < cell board row col

/-- The result record of `checkForDuplicate` (its localStorage lookup is an
external effect, so the model takes the record as a parameter). -/
structure DupCheck where
  isDuplicate : Bool
  duplicateMessage : Option String
deriving DecidableEq, Repr

/-- The result record of `validateExtractedPuzzle`; optional fields that a
branch of the source leaves out are `none`. -/
structure ValidationResult where
  isValid : Bool
  hasMultipleSolutions : Bool
  message : String
  solution : Option Grid
  isDuplicate : Option Bool
  duplicateMessage : Option String
deriving DecidableEq, Repr

/-- `validateExtractedPuzzle` from ocr-engine.ts, with its checks in source
order: structure, digit range, conflicts, then the solver and the (mock)
solution counter. The second component of the result records whether the
branch taken ran `solveSudoku`, making "rejected before reaching the Solver"
a statement of the model. -/
def validateExtractedPuzzle (dup : DupCheck) (board : Grid) : ValidationResult × Bool :=
  if !(structurallyValid board) then
    ({ isValid := false, hasMultipleSolutions := false,
       message := "Invalid board structure detected",
       solution := none, isDuplicate := none, duplicateMessage := none }, false)
  else if hasInvalidNumbers board then
    ({ isValid := false, hasMultipleSolutions := false,
       message := "Invalid numbers detected in puzzle",
       solution := none, isDuplicate := none, duplicateMessage := none }, false)
  else if hasConflicts board then
    ({ isValid := false, hasMultipleSolutions := false,
       message := "Puzzle contains conflicts - please check the image",
       solution := none, isDuplicate := none, duplicateMessage := none }, false)
  else
    match solveSudoku board with
    | none =>
      ({ isValid := false, hasMultipleSolutions := false,
         message := "Puzzle has no valid solution",
         solution := none, isDuplicate := some dup.isDuplicate,
         duplicateMessage := dup.duplicateMessage }, true)
    | some solution =>
      if 1 < Ocr.countSolutions board then
        ({ isValid := true, hasMultipleSolutions := true,
           message := "Puzzle extracted successfully, but may have multiple solutions",
           solution := some solution, isDuplicate := some dup.isDuplicate,
           duplicateMessage := dup.duplicateMessage }, true)
      else
        ({ isValid := true, hasMultipleSolutions := false,
           message := "Puzzle extracted successfully with unique solution",
           solution := some solution, isDuplicate := some dup.isDuplicate,
           duplicateMessage := dup.duplicateMessage }, true)

end Ocr

/-- `ToInt32` of JavaScript: wrap an integer into `[-2^31, 2^31)`. -/
def toInt32 (n : Int) : Int :=
  (n + 2147483648) % 4294967296 - 2147483648

/-- One iteration of the hash loop in `createPuzzleHash`:
`hash = (hash << 5) - hash + char` followed by `hash = hash & hash`. The
shift converts its operand to a 32-bit integer and wraps the shifted result;
`hash & hash` wraps the sum. -/
def hashStep (hash c : Int) : Int :=
  toInt32 (toInt32 (toInt32 hash * 32) - hash + c)

/-- `createPuzzleHash` from puzzle-hash (imported by ocr-engine.ts): join all
cells into one digit string in row-major order, fold the character codes
through the hash loop starting from 0, and render the result in decimal. -/
def createPuzzleHash (board : Grid) : String :=
  let boardString := String.join (board.map fun row => String.join (row.map fun v => Nat.repr v))
  (boardString.data.foldl (fun hash ch => hashStep hash (Char.toNat ch : Int)) 0).repr

/-- Modelled from the claim wording for comparison with `createPuzzleHash`:
concatenate the 81 cell digits in row-major order and fold
`h := h * 31 + charCode` (the code of the digit character, `48 + d`) wrapped
to a 32-bit signed integer at every step, starting from 0; render the result
in decimal. -/
def specFingerprint (board : Grid) : String :=
  (((board.flatMap fun row => row).foldl
      (fun (h : Int) (d : Nat) => toInt32 (31 * h + (48 + (d : Int)))) 0)).repr

/-! Concrete inputs for the witnesses and counterexamples. -/

/-- The empty 9x9 grid. -/
def emptyGrid : Grid := List.replicate 9 (List.replicate 9 0)

/-- A complete valid grid whose three diagonal boxes hold 1..9 in row-major
order; it is the grid the crafted stream below drives `generateCompleteSudoku`
to produce. -/
def S81 : Grid :=
  [[1, 2, 3, 5, 4, 7, 6, 9, 8],
   [4, 5, 6, 2, 9, 8, 3, 1, 7],
   [7, 8, 9, 3, 6, 1, 2, 4, 5],
   [5, 6, 8, 1, 2, 3, 9, 7, 4],
   [9, 1, 7, 4, 5, 6, 8, 3, 2],
   [2, 3, 4, 7, 8, 9, 5, 6, 1],
   [6, 9, 5, 8, 7, 4, 1, 2, 3],
   [8, 7, 1, 9, 3, 2, 4, 5, 6],
   [3, 4, 2, 6, 1, 5, 7, 8, 9]]

/-- Stream values that make one Fisher-Yates pass over a list of length `n`
the identity (every step swaps an index with itself). -/
def idStream (n : Nat) : List Nat := (List.range (n - 1)).reverse.map (· + 1)

/-- Stream values that make one Fisher-Yates pass over `[1..9]` put digit `d`
first and change nothing else that matters: identity swaps except one swap of
positions 0 and `d - 1`. -/
def headStream (d : Nat) : List Nat :=
  (List.range 8).reverse.map fun i => if i + 1 == d - 1 then 0 else i + 1

/-- The cells outside the three diagonal boxes in row-major order: the order
in which `fillBoard` visits them when every tried digit fits at once. -/
def nonDiagCells : List (Nat × Nat) :=
  ((List.range 9).flatMap fun r => (List.range 9).map fun c => (r, c)).filter
    fun p => p.1 / 3 != p.2 / 3

/-- A concrete random stream that drives `generateSudoku` deterministically:
identity shuffles for the three diagonal boxes (writing 1..9 row-major, the
diagonal of `S81`), then for each remaining cell a shuffle that puts the
`S81` digit first (so `fillBoard` never backtracks and completes to `S81`),
then identity shuffles for the three passes over the position list. -/
def wtable : List Nat :=
  idStream 9 ++ idStream 9 ++ idStream 9 ++
  (nonDiagCells.flatMap fun p => headStream (cell S81 p.1 p.2)) ++
  idStream 81 ++ idStream 81 ++ idStream 81

/-- The crafted stream as a function. -/
def wrand : Nat → Nat := fun k => wtable.getD k 0

/-- A fixed timestamp string for the generation runs. -/
def wnow : String := "0"

/-- Options asking for 81 clues with the uniqueness guarantee: nothing is
removed, so the run is fully determined by `wrand`. -/
def opts81 : GenerationOptions :=
  { clues := 81, difficulty := .easy, ensureUnique := true, ensureSolvable := true }

/-- Options asking for 82 clues, one more than a board holds, with the
uniqueness guarantee: `toRemove = -1`, so the removal loop stops at once. -/
def opts82 : GenerationOptions :=
  { clues := 82, difficulty := .easy, ensureUnique := true, ensureSolvable := true }

/-- The puzzle the run `generateSudoku wrand wnow 1 opts81 0` returns. -/
def p81 : Puzzle :=
  { id := wnow, board := S81, solution := S81, difficulty := .easy, clues := 81 }

/-- The puzzle the run `generateSudoku wrand wnow 1 opts82 0` returns. -/
def p82 : Puzzle :=
  { id := wnow, board := S81, solution := S81, difficulty := .easy, clues := 82 }

/-- A board on which the backtracking search fails at once: the first empty
cell `(0,0)` admits no digit (1..8 sit in row 0, and 9 sits in column 0). -/
def stuckBoard : Grid :=
  [[0, 1, 2, 3, 4, 5, 6, 7, 8],
   [9, 0, 0, 0, 0, 0, 0, 0, 0],
   [0, 0, 0, 0, 0, 0, 0, 0, 0],
   [0, 0, 0, 0, 0, 0, 0, 0, 0],
   [0, 0, 0, 0, 0, 0, 0, 0, 0],
   [0, 0, 0, 0, 0, 0, 0, 0, 0],
   [0, 0, 0, 0, 0, 0, 0, 0, 0],
   [0, 0, 0, 0, 0, 0, 0, 0, 0],
   [0, 0, 0, 0, 0, 0, 0, 0, 0]]

/-- A board with two 5s in row 0 and nothing else. -/
def twoFives : Grid :=
  [[5, 0, 0, 0, 5, 0, 0, 0, 0],
   [0, 0, 0, 0, 0, 0, 0, 0, 0],
   [0, 0, 0, 0, 0, 0, 0, 0, 0],
   [0, 0, 0, 0, 0, 0, 0, 0, 0],
   [0, 0, 0, 0, 0, 0, 0, 0, 0],
   [0, 0, 0, 0, 0, 0, 0, 0, 0],
   [0, 0, 0, 0, 0, 0, 0, 0, 0],
   [0, 0, 0, 0, 0, 0, 0, 0, 0],
   [0, 0, 0, 0, 0, 0, 0, 0, 0]]

/-- The sample board the mock OCR extraction returns. -/
def mockBoard : Grid :=
  [[5, 3, 0, 0, 7, 0, 0, 0, 0],
   [6, 0, 0, 1, 9, 5, 0, 0, 0],
   [0, 9, 8, 0, 0, 0, 0, 6, 0],
   [8, 0, 0, 0, 6, 0, 0, 0, 3],
   [4, 0, 0, 8, 0, 3, 0, 0, 1],
   [7, 0, 0, 0, 2, 0, 0, 0, 6],
   [0, 6, 0, 0, 0, 0, 2, 8, 0],
   [0, 0, 0, 4, 1, 9, 0, 0, 5],
   [0, 0, 0, 0, 8, 0, 0, 7, 9]]

/-- A duplicate-check record with nothing found. -/
def noDup : Ocr.DupCheck := { isDuplicate := false, duplicateMessage := none }

/-! Basic lemmas about list updates and the cell accessors. -/

theorem getD_set_ne {α : Type _} (l : List α) {n m : Nat} (a d : α) (h : n ≠ m) :
    (l.set n a).getD m d = l.getD m d := by
  simp [List.getD_eq_getElem?_getD, List.getElem?_set_ne h]

theorem getD_set_self {α : Type _} (l : List α) {n : Nat} (a d : α) (h : n < l.length) :
    (l.set n a).getD n d = a := by
  simp [List.getD_eq_getElem?_getD, List.getElem?_set_self h]

theorem set_getD_self {α : Type _} (l : List α) (n : Nat) (d : α) :
    l.set n (l.getD n d) = l := by
  by_cases h : n < l.length
  · apply List.ext_getElem?
    intro j
    rw [List.getElem?_set]
    by_cases hj : n = j
    · subst hj
      simp [List.getD_eq_getElem?_getD, List.getElem?_eq_getElem h, h]
    · simp [hj]
  · exact List.set_eq_of_length_le (Nat.le_of_not_lt h)

/-- A write at one cell does not change any other cell (in or out of range). -/
theorem cell_setCell_ne (b : Grid) {r c : Nat} (v : Nat) {r2 c2 : Nat}
    (h : (r2, c2) ≠ (r, c)) : cell (setCell b r c v) r2 c2 = cell b r2 c2 := by
  unfold cell setCell
  by_cases hr : r2 = r
  · subst hr
    have hc : c ≠ c2 := fun e => h (by rw [e])
    by_cases hlen : r2 < b.length
    · rw [getD_set_self _ _ _ hlen, getD_set_ne _ _ _ hc]
    · rw [List.set_eq_of_length_le (Nat.le_of_not_lt hlen)]
  · rw [getD_set_ne _ _ _ (fun e => hr e.symm)]

/-- Zeroing a cell and writing its old value back restores the board exactly. -/
theorem setCell_restore (b : Grid) (r c : Nat) :
    setCell (setCell b r c 0) r c (cell b r c) = b := by
  unfold cell setCell
  by_cases hr : r < b.length
  · rw [getD_set_self _ _ _ hr, List.set_set, List.set_set, set_getD_self, set_getD_self]
  · rw [List.set_eq_of_length_le (Nat.le_of_not_lt hr),
        List.set_eq_of_length_le (Nat.le_of_not_lt hr)]

theorem map_self {α : Type _} (l : List α) : l.map (fun v => v) = l := by
  induction l <;> simp_all

theorem copyGrid_eq (b : Grid) : copyGrid b = b := by
  unfold copyGrid
  simp only [map_self]

/-! Counting empty and filled scan cells. -/

theorem clueCountB_add_zerosB (b : Grid) : clueCountB b + zerosB b = 81 := by
  unfold clueCountB zerosB
  have h := Finset.filter_card_add_filter_neg_card_eq_card
    (s := scanPos) (p := fun p => cell b p.1 p.2 = 0)
  have hcard : scanPos.card = 81 := by
    rw [scanPos, Finset.card_product, Finset.card_range]
  omega

/-- Zeroing one cell adds at most one empty scan cell. -/
theorem zerosB_setCell_zero_le (b : Grid) (r c : Nat) :
    zerosB (setCell b r c 0) ≤ zerosB b + 1 := by
  unfold zerosB
  have hsub : (scanPos.filter fun p => cell (setCell b r c 0) p.1 p.2 = 0) ⊆
      insert (r, c) (scanPos.filter fun p => cell b p.1 p.2 = 0) := by
    intro p hp
    rw [Finset.mem_filter] at hp
    rw [Finset.mem_insert]
    by_cases hpc : p = (r, c)
    · exact Or.inl hpc
    · refine Or.inr (Finset.mem_filter.mpr ⟨hp.1, ?_⟩)
      have hne : (p.1, p.2) ≠ (r, c) := by
        rw [Prod.mk.eta]; exact hpc
      rw [← cell_setCell_ne b 0 hne]
      exact hp.2
  calc (scanPos.filter fun p => cell (setCell b r c 0) p.1 p.2 = 0).card
      ≤ (insert (r, c) (scanPos.filter fun p => cell b p.1 p.2 = 0)).card :=
        Finset.card_le_card hsub
    _ ≤ (scanPos.filter fun p => cell b p.1 p.2 = 0).card + 1 := Finset.card_insert_le _ _

/-! Invariants of the removal loop. -/

/-- Along the removal loop the counter only grows, never passes
`max removed toRemove`, and the number of empty scan cells grows by at most
the number of counted removals: a rejected removal restores the board
exactly. -/
theorem removeLoop_spec (ps : List (Nat × Nat)) :
    ∀ (b : Grid) (removed toRemove : Int),
      removed ≤ (removeLoop ps b removed toRemove).2 ∧
      (removeLoop ps b removed toRemove).2 ≤ max removed toRemove ∧
      (zerosB (removeLoop ps b removed toRemove).1 : Int) ≤
        zerosB b + ((removeLoop ps b removed toRemove).2 - removed) := by
  induction ps with
  | nil =>
    intro b removed toRemove
    simp [removeLoop, le_max_left]
  | cons rc rest ih =>
    intro b removed toRemove
    obtain ⟨r, c⟩ := rc
    rw [removeLoop]
    by_cases h1 : removed < toRemove
    · rw [if_pos h1]
      by_cases h2 : hasUniqueSolution (setCell b r c 0)
      · rw [if_pos h2]
        obtain ⟨ha, hb, hc⟩ := ih (setCell b r c 0) (removed + 1) toRemove
        have hz := zerosB_setCell_zero_le b r c
        refine ⟨by omega, ?_, by omega⟩
        have : max (removed + 1) toRemove = max removed toRemove := by omega
        omega
      · rw [if_neg h2, setCell_restore]
        exact ih b removed toRemove
    · rw [if_neg h1]
      exact ⟨le_refl _, le_max_left _ _, by simp⟩

/-- The board `createPuzzleFromSolution` returns keeps all but at most
`max 0 (81 - targetClues)` of the non-zero scan cells of the solution it
started from. -/
theorem createPuzzleFromSolution_clue_bound (rand : Nat → Nat) (sol : Grid) (t : Int)
    (k : Nat) (ht : t ≤ 81) :
    (clueCountB sol : Int) ≤
      clueCountB (createPuzzleFromSolution rand sol t k).1 + (81 - t) := by
  have key : ∀ ps : List (Nat × Nat),
      (clueCountB sol : Int) ≤ clueCountB (removeLoop ps sol 0 (81 - t)).1 + (81 - t) := by
    intro ps
    obtain ⟨h1, h2, h3⟩ := removeLoop_spec ps sol 0 (81 - t)
    have e1 := clueCountB_add_zerosB sol
    have e2 := clueCountB_add_zerosB (removeLoop ps sol 0 (81 - t)).1
    have hmax : max (0 : Int) (81 - t) = 81 - t := by omega
    rw [hmax] at h2
    omega
  simp only [createPuzzleFromSolution]
  rw [copyGrid_eq]
  exact key _

/-! What every puzzle `generateSudoku` returns satisfies by construction. -/

/-- Any returned puzzle carries the requested `clues` value verbatim, has a
unique-solution board whenever `ensureUnique` was requested (the branch that
returns checked exactly that), and lost at most `81 - targetClues` non-zero
scan cells between its solution and its board. -/
theorem generateSudoku_succ (rand : Nat → Nat) (now : String) (fuel : Nat)
    (opts : GenerationOptions) (k : Nat) :
    generateSudoku rand now (fuel + 1) opts k =
      (if (opts.ensureUnique && !hasUniqueSolution (createPuzzleFromSolution rand
            (generateCompleteSudoku rand k).1 opts.clues (generateCompleteSudoku rand k).2).1)
       then generateSudoku rand now fuel opts
              (createPuzzleFromSolution rand (generateCompleteSudoku rand k).1 opts.clues
                (generateCompleteSudoku rand k).2).2.2
       else some ({ id := now,
                    board := (createPuzzleFromSolution rand (generateCompleteSudoku rand k).1
                      opts.clues (generateCompleteSudoku rand k).2).1,
                    solution := (generateCompleteSudoku rand k).1,
                    difficulty := opts.difficulty, clues := opts.clues },
                  (createPuzzleFromSolution rand (generateCompleteSudoku rand k).1 opts.clues
                    (generateCompleteSudoku rand k).2).2.2)) := rfl

theorem generateSudoku_some_spec (rand : Nat → Nat) (now : String) :
    ∀ (fuel : Nat) (opts : GenerationOptions) (k : Nat) (p : Puzzle) (k2 : Nat),
      generateSudoku rand now fuel opts k = some (p, k2) →
      p.clues = opts.clues ∧
      (opts.ensureUnique = true → hasUniqueSolution p.board = true) ∧
      (opts.clues ≤ 81 →
        (clueCountB p.solution : Int) ≤ clueCountB p.board + (81 - opts.clues)) := by
  intro fuel
  induction fuel with
  | zero => intro opts k p k2 h; simp [generateSudoku] at h
  | succ fuel ih =>
    intro opts k p k2 h
    rw [generateSudoku_succ] at h
    generalize hP : generateCompleteSudoku rand k = P at h
    generalize hQ : createPuzzleFromSolution rand P.1 opts.clues P.2 = Q at h
    by_cases hcond : (opts.ensureUnique && !hasUniqueSolution Q.1) = true
    · rw [if_pos hcond] at h
      exact ih opts _ p k2 h
    · rw [if_neg hcond] at h
      rw [Option.some.injEq, Prod.mk.injEq] at h
      obtain ⟨hp, -⟩ := h
      subst hp
      refine ⟨rfl, ?_, ?_⟩
      · intro hu
        rw [hu, Bool.true_and, Bool.not_eq_true, Bool.not_eq_false'] at hcond
        exact hcond
      · intro hc
        have hb := createPuzzleFromSolution_clue_bound rand P.1 opts.clues P.2 hc
        rw [hQ] at hb
        exact hb

/-! The failed search restores its buffer: the undo discipline of the
backtracking solver. -/

/-- When the digit loop fails it hands back exactly the board it was given:
every recursive attempt wrote a digit and was undone (the source resets the
cell to 0, its value before the write). This holds for any `recur`. -/
theorem solveTry_false (recur : Grid → Bool × Grid) (board : Grid) (row col : Nat) :
    ∀ nums : List Nat, (solveTry recur board row col nums).1 = false →
      (solveTry recur board row col nums).2 = board := by
  intro nums
  induction nums with
  | nil => intro _; rfl
  | cons num rest ih =>
    intro h
    rw [solveTry] at h ⊢
    by_cases hv : isValidMove board row col num
    · rw [if_pos hv] at h ⊢
      cases hrec : recur (setCell board row col num) with
      | mk ok b2 =>
        rw [hrec] at h
        cases ok with
        | true => simp at h
        | false => exact ih h
    · rw [if_neg hv] at h ⊢
      exact ih h

/-- A failed backtracking search returns the exact grid it started from. -/
theorem solveBacktrack_false (fuel : Nat) :
    ∀ g : Grid, (solveBacktrack fuel g).1 = false → (solveBacktrack fuel g).2 = g := by
  induction fuel with
  | zero => intro g _; rfl
  | succ n ih =>
    intro g h
    rw [solveBacktrack] at h ⊢
    cases hfe : findEmpty g with
    | none => rw [hfe] at h
    | some rc =>
      obtain ⟨r, c⟩ := rc
      rw [hfe] at h
      exact solveTry_false _ _ _ _ _ h

/-! The conflict scan of the extracted-board validation. -/

/-- With the duplicated cell zeroed, the other copy of the digit still sits in
the shared row, column or box, so the constraint checker rejects it. -/
theorem Ocr.isValidMove_dup_false (board : Grid) {r1 c1 r2 c2 d : Nat}
    (h3 : r2 < 9) (h4 : c2 < 9)
    (hne : (r1, c1) ≠ (r2, c2)) (hv2 : cell board r2 c2 = d)
    (hunit : r1 = r2 ∨ c1 = c2 ∨ (r1 / 3 = r2 / 3 ∧ c1 / 3 = c2 / 3)) :
    Ocr.isValidMove (setCell board r1 c1 0) r1 c1 d = false := by
  have hcell : cell (setCell board r1 c1 0) r2 c2 = d := by
    rw [cell_setCell_ne board 0 (Ne.symm hne)]
    exact hv2
  rw [← Bool.not_eq_true]
  intro hvalid
  unfold Ocr.isValidMove at hvalid
  rw [Bool.and_eq_true, Bool.and_eq_true] at hvalid
  obtain ⟨⟨hrow, hcol⟩, hbox⟩ := hvalid
  rw [List.all_eq_true] at hrow hcol
  rcases hunit with hr | hc | ⟨hbr, hbc⟩
  · subst hr
    have hx := hrow c2 (List.mem_range.mpr h4)
    rw [hcell] at hx
    simp at hx
  · subst hc
    have hx := hcol r2 (List.mem_range.mpr h3)
    rw [hcell] at hx
    simp at hx
  · simp only [List.all_eq_true] at hbox
    have hx := hbox (r2 - r1 / 3 * 3) (List.mem_range.mpr (by omega))
    have hy := hx (c2 - c1 / 3 * 3) (List.mem_range.mpr (by omega))
    have er : r1 / 3 * 3 + (r2 - r1 / 3 * 3) = r2 := by omega
    have ec : c1 / 3 * 3 + (c2 - c1 / 3 * 3) = c2 := by omega
    rw [er, ec, hcell] at hy
    simp at hy

/-- A nonzero digit sitting at two distinct scan cells of one row, column or
box makes `hasConflicts` fire. -/
theorem Ocr.hasConflicts_of_dup (board : Grid) {r1 c1 r2 c2 d : Nat}
    (h1 : r1 < 9) (h2 : c1 < 9) (h3 : r2 < 9) (h4 : c2 < 9)
    (hne : (r1, c1) ≠ (r2, c2)) (hd : d ≠ 0)
    (hv1 : cell board r1 c1 = d) (hv2 : cell board r2 c2 = d)
    (hunit : r1 = r2 ∨ c1 = c2 ∨ (r1 / 3 = r2 / 3 ∧ c1 / 3 = c2 / 3)) :
    Ocr.hasConflicts board = true := by
  unfold Ocr.hasConflicts
  rw [List.any_eq_true]
  refine ⟨r1, List.mem_range.mpr h1, ?_⟩
  rw [List.any_eq_true]
  refine ⟨c1, List.mem_range.mpr h2, ?_⟩
  rw [hv1, Bool.and_eq_true]
  refine ⟨by simp [hd], ?_⟩
  rw [Bool.not_eq_true']
  exact Ocr.isValidMove_dup_false board h3 h4 hne hv2 hunit

/-! The fingerprint hash: the shift-and-subtract loop of the source computes
`h * 31 + charCode` wrapped to 32-bit at every step. -/

/-- `(h << 5) - h + c` followed by the `& `-wrap is one `31 * h + c` step
modulo 2^32. -/
theorem hashStep_eq (h c : Int) : hashStep h c = toInt32 (31 * h + c) := by
  unfold hashStep toInt32
  omega

theorem string_foldl_data (l : List String) :
    ∀ s : String, (l.foldl (fun a b => a ++ b) s).data =
      s.data ++ (l.map String.data).flatten := by
  induction l with
  | nil => intro s; simp
  | cons hd tl ih =>
    intro s
    rw [List.foldl_cons, ih (s ++ hd)]
    simp

theorem string_join_data (l : List String) :
    (String.join l).data = (l.map String.data).flatten := by
  rw [String.join, string_foldl_data]
  rfl

/-- The decimal representation of a digit is its single character. -/
theorem repr_digit_data (d : Nat) (h : d ≤ 9) :
    (Nat.repr d).data = [Char.ofNat (48 + d)] := by
  interval_cases d <;> decide

/-- The code of a digit character. -/
theorem char_toNat_digit (d : Nat) (h : d ≤ 9) :
    (Char.ofNat (48 + d)).toNat = 48 + d := by
  interval_cases d <;> decide

theorem row_join_data (row : List Nat) (h : ∀ v ∈ row, v ≤ 9) :
    (String.join (row.map fun v => Nat.repr v)).data =
      row.map fun d => Char.ofNat (48 + d) := by
  rw [string_join_data, List.map_map]
  have hmaps : row.map (String.data ∘ fun v => Nat.repr v) =
      row.map fun d => [Char.ofNat (48 + d)] :=
    List.map_congr_left fun a ha => repr_digit_data a (h a ha)
  rw [hmaps]
  induction row with
  | nil => rfl
  | cons v tl ih =>
    rw [List.map_cons, List.flatten_cons, List.map_cons]
    rw [ih (fun x hx => h x (List.mem_cons_of_mem v hx))
        (List.map_congr_left fun a ha => repr_digit_data a (h a (List.mem_cons_of_mem v ha)))]
    rfl

theorem boardString_data (board : Grid) (h : ∀ row ∈ board, ∀ v ∈ row, v ≤ 9) :
    (String.join (board.map fun row => String.join (row.map fun v => Nat.repr v))).data =
      (board.flatMap fun row => row).map fun d => Char.ofNat (48 + d) := by
  rw [string_join_data, List.map_map]
  have hmaps : board.map (String.data ∘ fun row => String.join (row.map fun v => Nat.repr v)) =
      board.map fun row => row.map fun d => Char.ofNat (48 + d) :=
    List.map_congr_left fun row hrow => row_join_data row (h row hrow)
  rw [hmaps]
  induction board with
  | nil => rfl
  | cons row tl ih =>
    rw [List.map_cons, List.flatten_cons, List.flatMap_cons, List.map_append]
    rw [ih (fun r hr => h r (List.mem_cons_of_mem row hr))
        (List.map_congr_left fun r hr => row_join_data r (h r (List.mem_cons_of_mem row hr)))]

theorem hash_fold_digits (l : List Nat) (hl : ∀ v ∈ l, v ≤ 9) :
    ∀ a : Int,
      (l.map fun d => Char.ofNat (48 + d)).foldl
          (fun hash ch => hashStep hash (Char.toNat ch : Int)) a =
        l.foldl (fun (h : Int) (d : Nat) => toInt32 (31 * h + (48 + (d : Int)))) a := by
  induction l with
  | nil => intro a; rfl
  | cons v tl ih =>
    intro a
    rw [List.map_cons, List.foldl_cons, List.foldl_cons,
        char_toNat_digit v (hl v (List.mem_cons_self v tl)), hashStep_eq]
    have : ((48 + v : Nat) : Int) = 48 + (v : Int) := by push_cast; ring
    rw [this]
    exact ih (fun x hx => hl x (List.mem_cons_of_mem v hx)) _

/-! The claims. -/

/-- Claim C1: every Puzzle `generateSudoku` returns when the options have
`ensureUnique = true` has a board with exactly one complete valid extension:
`countSolutions(result.board, 2) = 1`, equivalently
`hasUniqueSolution(result.board)`. The branch that returns a puzzle did so
only because this very check passed (or was retried until it did). -/
theorem generateSudoku_ensures_unique (rand : Nat → Nat) (now : String) (fuel : Nat)
    (opts : GenerationOptions) (k : Nat) (p : Puzzle) (k2 : Nat)
    (h : generateSudoku rand now fuel opts k = some (p, k2))
    (hu : opts.ensureUnique = true) :
    countSolutions p.board 2 = 1 ∧ hasUniqueSolution p.board = true := by
  have hq := (generateSudoku_some_spec rand now fuel opts k p k2 h).2.1 hu
  refine ⟨?_, hq⟩
  unfold hasUniqueSolution at hq
  unfold countSolutions
  exact beq_iff_eq.mp hq

/-- Witness for C1: the run driven by the crafted stream `wrand` with
`opts81` (81 clues, ensureUnique) returns the puzzle `p81`, whose board has
exactly one completion. -/
theorem generateSudoku_ensures_unique_witness :
    countSolutions p81.board 2 = 1 ∧ hasUniqueSolution p81.board = true :=
  generateSudoku_ensures_unique wrand wnow 1 opts81 0 p81 696 (by decide!) rfl

/-- Counterexample for C2: requesting 82 clues with `ensureUnique` returns a
puzzle whose `clues` field is 82 while its board holds 81 non-zero cells, so
the `clues` field does not equal the count of non-zero cells. -/
theorem generateSudoku_clues_mismatch_cex :
    (generateSudoku wrand wnow 1 opts82 0).map
        (fun pr => (pr.1.clues, (clueCountB pr.1.board : Int))) = some (82, 81) ∧
      ¬ ((82 : Int) = 81) :=
  ⟨by decide!, by decide⟩

/-- Claim C2 as amended: the `clues` field of every returned Puzzle is the
requested `options.clues`, copied verbatim; it is not recomputed from the
board, whose non-zero count is `81 - removed` and can differ. -/
theorem generateSudoku_clues_eq_requested (rand : Nat → Nat) (now : String) (fuel : Nat)
    (opts : GenerationOptions) (k : Nat) (p : Puzzle) (k2 : Nat)
    (h : generateSudoku rand now fuel opts k = some (p, k2)) :
    p.clues = opts.clues :=
  (generateSudoku_some_spec rand now fuel opts k p k2 h).1

/-- Witness for the amended C2 at the crafted 81-clue run. -/
theorem generateSudoku_clues_eq_requested_witness : p81.clues = opts81.clues :=
  generateSudoku_clues_eq_requested wrand wnow 1 opts81 0 p81 696 (by decide!)

/-- Counterexample for C4: with `ensureUnique = true` and `targetClues = 82`
the returned board has 81 non-zero cells, below the requested target, so the
absolute clue floor fails for targets above 81. -/
theorem generateSudoku_clue_floor_cex :
    opts82.ensureUnique = true ∧
    (generateSudoku wrand wnow 1 opts82 0).map
        (fun pr => (clueCountB pr.1.board : Int)) = some 81 ∧
    ¬ ((81 : Int) ≥ opts82.clues) :=
  ⟨rfl, by decide!, by decide⟩

/-- Claim C4 as amended: when `ensureUnique` is requested and
`targetClues ≤ 81`, the removal loop removes at most `81 - targetClues`
cells and never more to compensate for rejected removals: the returned board
keeps at least `clueCount(solution) - (81 - targetClues)` non-zero cells
(which is `targetClues` whenever the internal solution is complete). For
`targetClues > 81` the absolute floor fails, see the counterexample. -/
theorem generateSudoku_removal_bounded (rand : Nat → Nat) (now : String) (fuel : Nat)
    (opts : GenerationOptions) (k : Nat) (p : Puzzle) (k2 : Nat)
    (h : generateSudoku rand now fuel opts k = some (p, k2))
    (hu : opts.ensureUnique = true) (hc : opts.clues ≤ 81) :
    (clueCountB p.solution : Int) ≤ clueCountB p.board + (81 - opts.clues) :=
  (generateSudoku_some_spec rand now fuel opts k p k2 h).2.2 hc

/-- Witness for the amended C4 at the crafted 81-clue run. -/
theorem generateSudoku_removal_bounded_witness :
    (clueCountB p81.solution : Int) ≤ clueCountB p81.board + (81 - opts81.clues) :=
  generateSudoku_removal_bounded wrand wnow 1 opts81 0 p81 696 (by decide!) rfl (by decide)

/-- Claim C6: `solveSudoku` never touches the caller grid: the search runs
on `copyGrid board`, a copy equal as a value to the input, and when the
search fails (`solveSudoku` returns null) the backtracking left even that
private buffer exactly as it started — the undo discipline restores every
write. -/
theorem solveSudoku_frame (board : Grid) :
    copyGrid board = board ∧
    (solveSudoku board = none →
      (solveBacktrack 82 (copyGrid board)).2 = copyGrid board) := by
  refine ⟨copyGrid_eq board, fun hnone => ?_⟩
  apply solveBacktrack_false
  unfold solveSudoku at hnone
  cases hsb : solveBacktrack 82 (copyGrid board) with
  | mk ok b2 =>
    rw [hsb] at hnone
    cases ok with
    | true => simp at hnone
    | false => rfl

/-- Witness for C6: on `stuckBoard` the search fails and hands back the
untouched copy. -/
theorem solveSudoku_frame_witness :
    copyGrid stuckBoard = stuckBoard ∧
    (solveBacktrack 82 (copyGrid stuckBoard)).2 = copyGrid stuckBoard :=
  ⟨(solveSudoku_frame stuckBoard).1, (solveSudoku_frame stuckBoard).2 (by decide!)⟩

/-- Claim C8: a structurally well-formed board carrying the same non-zero
digit at two distinct cells of one row, one column or one box is rejected by
`validateExtractedPuzzle` with `isValid = false`, and the Solver is never
invoked (the second component of the model records whether the taken branch
ran `solveSudoku`). The digit-range guard may fire first; either way the
result is invalid without a solve. -/
theorem validateExtractedPuzzle_rejects_conflicts (dup : Ocr.DupCheck) (board : Grid)
    {r1 c1 r2 c2 d : Nat}
    (hstruct : Ocr.structurallyValid board = true)
    (h1 : r1 < 9) (h2 : c1 < 9) (h3 : r2 < 9) (h4 : c2 < 9)
    (hne : (r1, c1) ≠ (r2, c2)) (hd : d ≠ 0)
    (hv1 : cell board r1 c1 = d) (hv2 : cell board r2 c2 = d)
    (hunit : r1 = r2 ∨ c1 = c2 ∨ (r1 / 3 = r2 / 3 ∧ c1 / 3 = c2 / 3)) :
    (Ocr.validateExtractedPuzzle dup board).1.isValid = false ∧
      (Ocr.validateExtractedPuzzle dup board).2 = false := by
  have hconf := Ocr.hasConflicts_of_dup board h1 h2 h3 h4 hne hd hv1 hv2 hunit
  unfold Ocr.validateExtractedPuzzle
  rw [if_neg (by simp [hstruct] : ¬ ((!Ocr.structurallyValid board) = true))]
  by_cases hdig : Ocr.hasInvalidNumbers board = true
  · rw [if_pos hdig]
    exact ⟨rfl, rfl⟩
  · rw [if_neg hdig, if_pos hconf]
    exact ⟨rfl, rfl⟩

/-- Witness for C8: two 5s in row 0 (cells (0,0) and (0,4)) are rejected
before any solve. -/
theorem validateExtractedPuzzle_rejects_conflicts_witness :
    (Ocr.validateExtractedPuzzle noDup twoFives).1.isValid = false ∧
      (Ocr.validateExtractedPuzzle noDup twoFives).2 = false :=
  @validateExtractedPuzzle_rejects_conflicts noDup twoFives 0 0 0 4 5
    (by decide) (by decide) (by decide) (by decide) (by decide) (by decide) (by decide)
    (by decide) (by decide) (Or.inl rfl)

/-- Claim C9: for a 9x9 grid of digits 0..9, `createPuzzleHash` is the
decimal string of the fold `h := h * 31 + charCode` over the 81 digit
characters in row-major order, wrapped to a 32-bit signed integer at every
step, starting from 0 (`specFingerprint` spells out exactly that reading).
Determinism is immediate: the embedding is a pure function of the grid. -/
theorem createPuzzleHash_spec (board : Grid)
    (hlen : board.length = 9) (hrows : ∀ row ∈ board, row.length = 9)
    (hdig : ∀ row ∈ board, ∀ v ∈ row, v ≤ 9) :
    createPuzzleHash board = specFingerprint board := by
  simp only [createPuzzleHash, specFingerprint]
  have hmem : ∀ v ∈ board.flatMap fun row => row, v ≤ 9 := by
    intro v hv
    rw [List.mem_flatMap] at hv
    obtain ⟨row, hrow, hvr⟩ := hv
    exact hdig row hrow v hvr
  rw [boardString_data board hdig, hash_fold_digits _ hmem 0]

/-- Witness for C9 at the sample extraction board. -/
theorem createPuzzleHash_spec_witness :
    createPuzzleHash mockBoard = specFingerprint mockBoard :=
  createPuzzleHash_spec mockBoard (by decide) (by decide) (by decide)

/-- Claim C10: on any structurally well-formed, digit-clean, conflict-free
and solvable board, `validateExtractedPuzzle` reports
`hasMultipleSolutions = false`, because its internal solution counter is a
stub that returns 1 without searching — even for boards with many
completions such as the empty grid. -/
theorem validateExtractedPuzzle_stub_no_multiple (dup : Ocr.DupCheck) (board : Grid)
    (hstruct : Ocr.structurallyValid board = true)
    (hdig : Ocr.hasInvalidNumbers board = false)
    (hconf : Ocr.hasConflicts board = false)
    (hsolve : (solveSudoku board).isSome = true) :
    (Ocr.validateExtractedPuzzle dup board).1.hasMultipleSolutions = false ∧
      Ocr.countSolutions board = 1 := by
  unfold Ocr.validateExtractedPuzzle
  rw [if_neg (by simp [hstruct] : ¬ ((!Ocr.structurallyValid board) = true))]
  rw [if_neg (by simp [hdig] : ¬ (Ocr.hasInvalidNumbers board = true))]
  rw [if_neg (by simp [hconf] : ¬ (Ocr.hasConflicts board = true))]
  cases hs : solveSudoku board with
  | none => rw [hs] at hsolve; simp at hsolve
  | some s => exact ⟨rfl, rfl⟩

/-- Witness for C10: the empty grid is well-formed, conflict-free and
solvable (it has many completions), yet the flag stays false. -/
theorem validateExtractedPuzzle_stub_no_multiple_witness :
    (Ocr.validateExtractedPuzzle noDup emptyGrid).1.hasMultipleSolutions = false ∧
      Ocr.countSolutions emptyGrid = 1 :=
  validateExtractedPuzzle_stub_no_multiple noDup emptyGrid
    (by decide) (by decide) (by decide) (by decide!)

/-- Claim C7: counting solutions of the completely empty grid with limit 2
terminates and yields exactly 2: the search aborts the instant the
accumulated count reaches the limit instead of enumerating the full
solution space. -/
theorem countSolutions_empty_limit_two : countSolutions emptyGrid 2 = 2 := by decide!

/-! Supporting facts: the removal loop only blanks cells, so every non-zero
cell of a returned board still carries its solution digit. (The other half
of the puzzle-consistency claim — that the internal Completer always yields
a complete grid — rests on a combinatorial fact about diagonal-box seedings
that is not formalised here.) -/

theorem setCell_zero_cell_or_eq (b : Grid) (r c : Nat) :
    cell (setCell b r c 0) r c = 0 ∨ setCell b r c 0 = b := by
  by_cases hr : r < b.length
  · by_cases hc : c < (b.getD r []).length
    · left
      unfold cell setCell
      rw [getD_set_self _ _ _ hr, getD_set_self _ _ _ hc]
    · right
      unfold setCell
      rw [List.set_eq_of_length_le (Nat.le_of_not_lt hc), set_getD_self]
  · right
    unfold setCell
    exact List.set_eq_of_length_le (Nat.le_of_not_lt hr)

theorem removeLoop_cells (ps : List (Nat × Nat)) :
    ∀ (b : Grid) (removed toRemove : Int) (r c : Nat),
      cell (removeLoop ps b removed toRemove).1 r c = cell b r c ∨
      cell (removeLoop ps b removed toRemove).1 r c = 0 := by
  induction ps with
  | nil => intro b removed toRemove r c; left; rfl
  | cons rc0 rest ih =>
    intro b removed toRemove r c
    obtain ⟨r0, c0⟩ := rc0
    rw [removeLoop]
    by_cases h1 : removed < toRemove
    · rw [if_pos h1]
      by_cases h2 : hasUniqueSolution (setCell b r0 c0 0)
      · rw [if_pos h2]
        rcases ih (setCell b r0 c0 0) (removed + 1) toRemove r c with hcell | hzero
        · by_cases hp : (r, c) = (r0, c0)
          · rw [Prod.mk.injEq] at hp
            obtain ⟨rfl, rfl⟩ := hp
            rcases setCell_zero_cell_or_eq b r c with hz | heq
            · right; rw [hcell, hz]
            · left; rw [hcell, heq]
          · left; rw [hcell, cell_setCell_ne b 0 hp]
        · right; exact hzero
      · rw [if_neg h2, setCell_restore]
        exact ih b removed toRemove r c
    · rw [if_neg h1]; left; rfl

theorem createPuzzleFromSolution_cells (rand : Nat → Nat) (sol : Grid) (t : Int) (k : Nat)
    (r c : Nat) :
    cell (createPuzzleFromSolution rand sol t k).1 r c = cell sol r c ∨
    cell (createPuzzleFromSolution rand sol t k).1 r c = 0 := by
  simp only [createPuzzleFromSolution]
  rw [copyGrid_eq]
  exact removeLoop_cells _ sol 0 (81 - t) r c

/-- Every non-zero cell of a returned board equals the same cell of the
returned solution: the board starts as a copy of the solution and the
removal loop only writes zeros or restores. -/
theorem generateSudoku_board_matches_solution (rand : Nat → Nat) (now : String) :
    ∀ (fuel : Nat) (opts : GenerationOptions) (k : Nat) (p : Puzzle) (k2 : Nat),
      generateSudoku rand now fuel opts k = some (p, k2) →
      ∀ r c : Nat, cell p.board r c ≠ 0 → cell p.board r c = cell p.solution r c := by
  intro fuel
  induction fuel with
  | zero => intro opts k p k2 h; simp [generateSudoku] at h
  | succ fuel ih =>
    intro opts k p k2 h
    rw [generateSudoku_succ] at h
    generalize hP : generateCompleteSudoku rand k = P at h
    have hcells := fun r c => createPuzzleFromSolution_cells rand P.1 opts.clues P.2 r c
    generalize hQ : createPuzzleFromSolution rand P.1 opts.clues P.2 = Q at h hcells
    by_cases hcond : (opts.ensureUnique && !hasUniqueSolution Q.1) = true
    · rw [if_pos hcond] at h
      exact ih opts _ p k2 h
    · rw [if_neg hcond] at h
      rw [Option.some.injEq, Prod.mk.injEq] at h
      obtain ⟨hp, -⟩ := h
      subst hp
      intro r c hnz
      rcases hcells r c with he | hz
      · exact he
      · exact absurd hz hnz
